import Mathlib

/-!
Verification of the xarc crate (atomically swappable, atomically refcounted
smart pointers) against its specification.

The Rust sources under src/ are shallowly embedded: the heap is a total map
from addresses to reference counts and stored values, address 0 plays the
role of the null pointer, and every operation is the sequential denotation of
the corresponding Rust function, with each atomic read-modify-write
linearized at its decisive step.  Panics are modelled as an aborting outcome
that carries the panic message and no successor state (the crate is no_std,
where a panic aborts), and the unbounded retry loop in AtomicXarc::load is
modelled with explicit fuel, exhaustion being a distinguished spinning
outcome.  Deferred reclamation (crossbeam guard defer_unchecked) is modelled
by a list of addresses scheduled for deallocation: the block stays readable
in the heap, reflecting that physical deallocation is deferred past the
operation itself.
-/

/-- Machine addresses; 0 is the null pointer. -/
abbrev Addr := Nat

/-- The mutable store shared by all handles and slots.  count and val model
the XarcData blocks (count 0 everywhere a block was never allocated),
nextAddr drives fresh allocation, and deferred lists the blocks scheduled
for deferred deallocation by the epoch guard. -/
structure Heap (α : Type) where
  count : Addr → Int
  val : Addr → Option α
  nextAddr : Addr
  deferred : List Addr

/-- The heap before any allocation. -/
def emptyHeap (α : Type) : Heap α :=
  { count := fun _ => 0, val := fun _ => none, nextAddr := 0, deferred := [] }

/-- Allocate a fresh XarcData block with count 1 (Box::into_raw(Box::new(XarcData::new(value)))).
Fresh addresses are strictly positive, so they never collide with null. -/
def Heap.alloc {α : Type} (st : Heap α) (v : α) : Addr × Heap α :=
  let a := st.nextAddr + 1
  (a, { st with
          count := Function.update st.count a 1,
          val := Function.update st.val a (some v),
          nextAddr := a })

/-- Result of a stateful operation: a normal return, an aborting panic with
its message, or exhaustion of the fuel bounding a retry loop. -/
inductive Outcome (ρ : Type) where
  | ok : ρ → Outcome ρ
  | panicked : String → Outcome ρ
  | spin : Outcome ρ
deriving Repr

/-- True when the outcome is a normal return. -/
def Outcome.isOk {ρ : Type} : Outcome ρ → Bool
  | .ok _ => true
  | _ => false

/-- True when the outcome is a panic. -/
def Outcome.isPanic {ρ : Type} : Outcome ρ → Bool
  | .panicked _ => true
  | _ => false

/-- XarcCount::new: every fresh count starts at 1. -/
def XarcCount.new : Int := 1

/-- XarcCount::decrement: fetch_sub(1) — returns the pre-decrement value,
leaves the decremented value in the counter. -/
def XarcCount.decrement (c : Int) : Int × Int := (c, c - 1)

/-- XarcCount::try_increment: the CAS loop linearized at its decisive step.
If the decisively observed value c is positive the successful
compare_exchange_weak returns Ok with the previous value c, having stored
c + 1; once a non-positive value is observed the loop exits with Err c and
no store was performed. -/
def XarcCount.try_increment (c : Int) : Except Int Int × Int :=
  if 0 < c then (Except.ok c, c + 1) else (Except.error c, c)

/-- XarcCount::unsafe_increment (renamed for Lean): fetch_add(1) — returns
the pre-increment value, stores the incremented value unconditionally. -/
def XarcCount.uncheckedIncrement (c : Int) : Int × Int := (c, c + 1)

/-- Free function decrement(ptr, guard): on a non-null pointer, decrement the
count; when the pre-decrement value was 1 (the 1-to-0 transition) move the
block onto the deferred-deallocation list of the guard.  The block data
itself is untouched — deallocation is deferred, never synchronous. -/
def decrement {α : Type} (st : Heap α) (p : Addr) : Heap α :=
  if p = 0 then st
  else
    let r := XarcCount.decrement (st.count p)
    let st1 := { st with count := Function.update st.count p r.2 }
    if r.1 = 1 then { st1 with deferred := p :: st1.deferred } else st1

/-- Free function unguarded_decrement(ptr): on a non-null pointer, decrement
the count and panic if the pre-decrement value was 1, i.e. if this decrement
itself reached 0.  Null pointers are ignored. -/
def unguarded_decrement {α : Type} (st : Heap α) (p : Addr) : Outcome (Heap α) :=
  if p = 0 then .ok st
  else
    let r := XarcCount.decrement (st.count p)
    if r.1 = 1 then .panicked "Unguarded XarcCount decrement to 0!"
    else .ok { st with count := Function.update st.count p r.2 }

/-- Free function try_increment(ptr, guard): succeeds immediately on null;
otherwise succeeds exactly when XarcCount::try_increment does, and a failed
attempt performs no store. -/
def try_increment {α : Type} (st : Heap α) (p : Addr) : Bool × Heap α :=
  if p = 0 then (true, st)
  else
    match XarcCount.try_increment (st.count p) with
    | (Except.ok _, c) => (true, { st with count := Function.update st.count p c })
    | (Except.error _, _) => (false, st)

/-- Free function unguarded_increment(ptr): on a non-null pointer, fetch_add
the count and panic if the pre-increment value was below 1.  Null pointers
are ignored. -/
def unguarded_increment {α : Type} (st : Heap α) (p : Addr) : Outcome (Heap α) :=
  if p = 0 then .ok st
  else
    let r := XarcCount.uncheckedIncrement (st.count p)
    if r.1 < 1 then .panicked "Unguarded XarcCount increment from 0!"
    else .ok { st with count := Function.update st.count p r.2 }

/-- The Xarc smart pointer (pointer.rs): a raw block address, 0 when null.
The type parameter records the stored value type. -/
structure Xarc (α : Type) where
  ptr : Addr
deriving DecidableEq, Repr

/-- Xarc::new(value): allocate a fresh block holding value with count 1. -/
def Xarc.new {α : Type} (st : Heap α) (v : α) : Xarc α × Heap α :=
  let r := st.alloc v
  (⟨r.1⟩, r.2)

/-- Xarc::null(): the null handle. -/
def Xarc.null {α : Type} : Xarc α := ⟨0⟩

/-- Xarc::init(ptr): wrap a raw address without touching any count. -/
def Xarc.init {α : Type} (p : Addr) : Xarc α := ⟨p⟩

/-- Xarc::try_from(ptr, guard): try_increment the block, and on success wrap
the address into a handle; the Err case carries unit, as in the source. -/
def Xarc.try_from {α : Type} (st : Heap α) (p : Addr) : Except Unit (Xarc α) × Heap α :=
  let r := try_increment st p
  (if r.1 then Except.ok (Xarc.init p) else Except.error (), r.2)

/-- Xarc::reset: guarded decrement of the held block, then the handle becomes
null (returned as the new value of the mutable handle). -/
def Xarc.reset {α : Type} (st : Heap α) (h : Xarc α) : Xarc α × Heap α :=
  (⟨0⟩, decrement st h.ptr)

/-- Xarc::is_null. -/
def Xarc.is_null {α : Type} (h : Xarc α) : Bool := h.ptr == 0

/-- Xarc::maybe_deref: read the stored value of a non-null handle, none on
null. -/
def Xarc.maybe_deref {α : Type} (st : Heap α) (h : Xarc α) : Option α :=
  if h.ptr = 0 then none else st.val h.ptr

/-- Clone for Xarc: unguarded_increment of the held block, then a second
handle to the same address. -/
def Xarc.clone {α : Type} (st : Heap α) (h : Xarc α) : Outcome (Xarc α × Heap α) :=
  match unguarded_increment st h.ptr with
  | .ok st1 => .ok (Xarc.init h.ptr, st1)
  | .panicked m => .panicked m
  | .spin => .spin

/-- Drop for Xarc: guarded decrement of the held block. -/
def Xarc.drop {α : Type} (st : Heap α) (h : Xarc α) : Heap α :=
  decrement st h.ptr

/-- Modelled from the spec: try_take is described in sections 4.2 and 8 of
the specification but absent from src/ (only the doc-comment take idiom in
pointer.rs hints at it).  Following the words of the spec: if the refcount is
exactly 1, move the value out leaving a sentinel behind and return ownership
of the value; otherwise return the handle unchanged, signaling ineligibility.
A null handle has no block with refcount 1, so it is returned unchanged. -/
def Xarc.try_take {α : Type} (st : Heap α) (sentinel : α) (h : Xarc α) :
    (α ⊕ Xarc α) × Heap α :=
  if h.ptr ≠ 0 ∧ st.count h.ptr = 1 then
    (match st.val h.ptr with
     | some v => Sum.inl v
     | none => Sum.inl sentinel,
     { st with val := Function.update st.val h.ptr (some sentinel) })
  else (Sum.inr h, st)

/-- AtomicXarc::new(value) (atomic.rs): allocate a fresh block with count 1;
the slot is modelled by the address it currently stores. -/
def AtomicXarc.new {α : Type} (st : Heap α) (v : α) : Addr × Heap α :=
  st.alloc v

/-- AtomicXarc::load(order): retry Xarc::try_from on the stored address until
it succeeds, modelled with explicit fuel (fuel exhaustion is the spinning
outcome; each failed attempt leaves the heap unchanged). -/
def AtomicXarc.load {α : Type} : Nat → Heap α → Addr → Outcome (Xarc α × Heap α)
  | 0, _, _ => .spin
  | n + 1, st, slot =>
    match Xarc.try_from st slot with
    | (Except.ok h, st1) => .ok (h, st1)
    | (Except.error _, st1) => AtomicXarc.load n st1 slot

/-- AtomicXarc::try_load(order): a single Xarc::try_from attempt on the
stored address, surfacing the failure. -/
def AtomicXarc.try_load {α : Type} (st : Heap α) (slot : Addr) :
    Except Unit (Xarc α) × Heap α :=
  Xarc.try_from st slot

/-- AtomicXarc::increment_or_reload(ptr, order): try_increment the observed
address and wrap it on success, otherwise fall back to a full load of the
slot. -/
def AtomicXarc.increment_or_reload {α : Type} (fuel : Nat) (st : Heap α)
    (slot p : Addr) : Outcome (Xarc α × Heap α) :=
  let r := try_increment st p
  if r.1 then .ok (Xarc.init p, r.2) else AtomicXarc.load fuel r.2 slot

/-- AtomicXarc::compare_exchange(current, new, success, failure):
unguarded_increment the new block, then the hardware CAS.  On success
(the slot equals the address of current) the slot now stores the address of
new and the previous address is returned as Ok without further count
changes.  On failure the optimistic increment is undone by a guarded
decrement and the up-to-date value of the slot is returned as Err via
increment_or_reload; sequentially the address observed by the failed CAS is
the address the slot still stores. -/
def AtomicXarc.compare_exchange {α : Type} (fuel : Nat) (st : Heap α)
    (slot : Addr) (current nw : Xarc α) :
    Outcome (Except (Xarc α) (Xarc α) × Addr × Heap α) :=
  match unguarded_increment st nw.ptr with
  | .panicked m => .panicked m
  | .spin => .spin
  | .ok st1 =>
    if slot = current.ptr then
      .ok (Except.ok (Xarc.init slot), nw.ptr, st1)
    else
      let st2 := decrement st1 nw.ptr
      match AtomicXarc.increment_or_reload fuel st2 slot slot with
      | .ok (h, st3) => .ok (Except.error h, slot, st3)
      | .panicked m => .panicked m
      | .spin => .spin

/-- AtomicXarc::swap(new, order): unguarded_increment the new block, then
atomically exchange the stored address, returning the previous one wrapped
by Xarc::init. -/
def AtomicXarc.swap {α : Type} (st : Heap α) (slot : Addr) (nw : Xarc α) :
    Outcome (Xarc α × Addr × Heap α) :=
  match unguarded_increment st nw.ptr with
  | .ok st1 => .ok (Xarc.init slot, nw.ptr, st1)
  | .panicked m => .panicked m
  | .spin => .spin

/-- The operations of the reference-counting interface of internal.rs,
applied to one address each. -/
inductive CountOp where
  | dec : Addr → CountOp
  | udec : Addr → CountOp
  | tryinc : Addr → CountOp
  | uinc : Addr → CountOp
deriving DecidableEq, Repr

/-- One step of the counting interface on the heap. -/
def stepOp {α : Type} (st : Heap α) : CountOp → Outcome (Heap α)
  | .dec p => .ok (decrement st p)
  | .udec p => unguarded_decrement st p
  | .tryinc p => .ok (try_increment st p).2
  | .uinc p => unguarded_increment st p

/-- Run a sequence of counting-interface operations, stopping at the first
abnormal outcome. -/
def runOps {α : Type} (st : Heap α) : List CountOp → Outcome (Heap α)
  | [] => .ok st
  | op :: ops =>
    match stepOp st op with
    | .ok st1 => runOps st1 ops
    | .panicked m => .panicked m
    | .spin => .spin

theorem unguarded_increment_null {α : Type} (st : Heap α) :
    unguarded_increment st 0 = .ok st := rfl

theorem unguarded_increment_pos {α : Type} (st : Heap α) (p : Addr)
    (hp : p ≠ 0) (hc : 1 ≤ st.count p) :
    unguarded_increment st p =
      .ok { st with count := Function.update st.count p (st.count p + 1) } := by
  simp [unguarded_increment, XarcCount.uncheckedIncrement, hp, not_lt.mpr hc]

theorem unguarded_increment_ok_cases {α : Type} (st : Heap α) (p : Addr)
    (h : p = 0 ∨ 1 ≤ st.count p) :
    unguarded_increment st p =
      .ok (if hp : p = 0 then st
           else { st with count := Function.update st.count p (st.count p + 1) }) := by
  by_cases hp : p = 0
  · subst hp; simp [unguarded_increment_null]
  · rcases h with h | h
    · exact absurd h hp
    · simp [hp, unguarded_increment_pos st p hp h]

theorem decrement_null {α : Type} (st : Heap α) : decrement st 0 = st := rfl

theorem decrement_count_self {α : Type} (st : Heap α) (p : Addr) (hp : p ≠ 0) :
    (decrement st p).count p = st.count p - 1 := by
  simp only [decrement, XarcCount.decrement, if_neg hp]
  split <;> simp [Function.update]

theorem decrement_count_other {α : Type} (st : Heap α) (p a : Addr) (ha : a ≠ p) :
    (decrement st p).count a = st.count a := by
  by_cases hp : p = 0
  · simp [hp, decrement_null]
  · simp only [decrement, XarcCount.decrement, if_neg hp]
    split <;> simp [Function.update_noteq ha]

theorem decrement_val {α : Type} (st : Heap α) (p : Addr) :
    (decrement st p).val = st.val := by
  by_cases hp : p = 0
  · simp [hp, decrement_null]
  · simp only [decrement, XarcCount.decrement, if_neg hp]
    split <;> rfl

theorem decrement_deferred {α : Type} (st : Heap α) (p : Addr) (hp : p ≠ 0) :
    (decrement st p).deferred =
      (if st.count p = 1 then p :: st.deferred else st.deferred) := by
  simp only [decrement, XarcCount.decrement, if_neg hp]
  split <;> simp_all

theorem try_increment_null {α : Type} (st : Heap α) :
    try_increment st 0 = (true, st) := rfl

theorem try_increment_pos {α : Type} (st : Heap α) (p : Addr)
    (hp : p ≠ 0) (hc : 0 < st.count p) :
    try_increment st p =
      (true, { st with count := Function.update st.count p (st.count p + 1) }) := by
  simp [try_increment, XarcCount.try_increment, hp, hc]

theorem try_increment_nonpos {α : Type} (st : Heap α) (p : Addr)
    (hp : p ≠ 0) (hc : st.count p ≤ 0) :
    try_increment st p = (false, st) := by
  simp [try_increment, XarcCount.try_increment, hp, not_lt.mpr hc]

/-- C3 counterexample: at an observed count of 1 the successful
try_increment returns Ok carrying 1, the pre-increment count, while the new
count it stored is 2; the claim predicts Ok carrying the new count 2. -/
theorem try_increment_cex :
    XarcCount.try_increment 1 = (Except.ok 1, 2) ∧
    (Except.ok (1 : Int) : Except Int Int) ≠ Except.ok 2 := by
  constructor
  · simp [XarcCount.try_increment]
  · intro h
    cases h

/-- C3 (amended): XarcCount.try_increment returns success if and only if the
observed count is positive, and the success value is the pre-increment
(observed) count while the stored count becomes one more; on a non-positive
count it returns failure carrying the current count and performs no
mutation. -/
theorem try_increment_amended (c : Int) :
    (0 < c → XarcCount.try_increment c = (Except.ok c, c + 1)) ∧
    (c ≤ 0 → XarcCount.try_increment c = (Except.error c, c)) := by
  constructor
  · intro h; simp [XarcCount.try_increment, h]
  · intro h; simp [XarcCount.try_increment, not_lt.mpr h]

theorem try_increment_amended_witness :
    XarcCount.try_increment 1 = (Except.ok 1, 2) ∧
    XarcCount.try_increment 0 = (Except.error 0, 0) :=
  ⟨(try_increment_amended 1).1 (by norm_num), (try_increment_amended 0).2 le_rfl⟩

/-- C4: XarcCount.decrement returns the pre-decrement count, and for a
non-null pointer the guarded decrement lowers the count by one and schedules
the block for deferred deallocation exactly when the returned pre-decrement
value is 1 (the 1-to-0 transition); the block contents stay in the heap, the
deallocation being deferred through the epoch guard rather than performed
synchronously. -/
theorem decrement_schedules_on_last {α : Type} (st : Heap α) (p : Addr) (hp : p ≠ 0) :
    (XarcCount.decrement (st.count p)).1 = st.count p ∧
    (decrement st p).count p = st.count p - 1 ∧
    (decrement st p).deferred =
      (if st.count p = 1 then p :: st.deferred else st.deferred) ∧
    (decrement st p).val = st.val :=
  ⟨rfl, decrement_count_self st p hp, decrement_deferred st p hp, decrement_val st p⟩

theorem decrement_schedules_on_last_witness :
    ((decrement (emptyHeap Int) 1).count 1 = (emptyHeap Int).count 1 - 1) ∧
    (decrement (emptyHeap Int) 1).deferred =
      (if (emptyHeap Int).count 1 = 1 then 1 :: (emptyHeap Int).deferred
       else (emptyHeap Int).deferred) :=
  ⟨(decrement_schedules_on_last (emptyHeap Int) 1 (by decide)).2.1,
   (decrement_schedules_on_last (emptyHeap Int) 1 (by decide)).2.2.1⟩

def heap1 : Heap Int := (Xarc.new (emptyHeap Int) 5).2

def heap2 : Heap Int := (Xarc.new heap1 7).2

/-- C5 counterexample: unguarded_decrement on a non-null pointer whose count
is already 0 returns normally (adjusting the count to -1) instead of
aborting, while on a count of 1 — a count not yet at or through 0 — it
aborts instead of returning normally. -/
theorem unguarded_decrement_cex :
    (emptyHeap Int).count 1 = 0 ∧
    (unguarded_decrement (emptyHeap Int) 1).isOk = true ∧
    heap1.count 1 = 1 ∧
    (unguarded_decrement heap1 1).isPanic = true := by
  refine ⟨rfl, rfl, ?_, ?_⟩ <;> decide

/-- C5 (amended): for a non-null pointer, unguarded_increment aborts exactly
when the pre-increment count is below 1 and otherwise adds one and returns
normally; unguarded_decrement aborts exactly when the pre-decrement count is
1, i.e. when this decrement itself reaches 0, and otherwise — including when
the count was already at or below 0 — subtracts one and returns normally. -/
theorem unguarded_ops_abort_amended {α : Type} (st : Heap α) (p : Addr) (hp : p ≠ 0) :
    (st.count p < 1 →
      unguarded_increment st p = .panicked "Unguarded XarcCount increment from 0!") ∧
    (1 ≤ st.count p →
      unguarded_increment st p =
        .ok { st with count := Function.update st.count p (st.count p + 1) }) ∧
    (st.count p = 1 →
      unguarded_decrement st p = .panicked "Unguarded XarcCount decrement to 0!") ∧
    (st.count p ≠ 1 →
      unguarded_decrement st p =
        .ok { st with count := Function.update st.count p (st.count p - 1) }) := by
  refine ⟨?_, ?_, ?_, ?_⟩
  · intro h
    simp [unguarded_increment, XarcCount.uncheckedIncrement, hp, h]
  · exact unguarded_increment_pos st p hp
  · intro h
    simp [unguarded_decrement, XarcCount.decrement, hp, h]
  · intro h
    simp [unguarded_decrement, XarcCount.decrement, hp, h]

theorem unguarded_ops_abort_amended_witness :
    (unguarded_increment (emptyHeap Int) 1 =
      .panicked "Unguarded XarcCount increment from 0!") ∧
    (unguarded_increment heap1 1 =
      .ok { heap1 with count := Function.update heap1.count 1 (heap1.count 1 + 1) }) ∧
    (unguarded_decrement heap1 1 =
      .panicked "Unguarded XarcCount decrement to 0!") ∧
    (unguarded_decrement (emptyHeap Int) 1 =
      .ok { emptyHeap Int with
              count := Function.update (emptyHeap Int).count 1 ((emptyHeap Int).count 1 - 1) }) :=
  ⟨(unguarded_ops_abort_amended (emptyHeap Int) 1 (by decide)).1 (by decide),
   (unguarded_ops_abort_amended heap1 1 (by decide)).2.1 (by decide),
   (unguarded_ops_abort_amended heap1 1 (by decide)).2.2.1 (by decide),
   (unguarded_ops_abort_amended (emptyHeap Int) 1 (by decide)).2.2.2 (by decide)⟩

/-- C9: Xarc.new(v).maybe_deref() returns some v, Xarc.null().maybe_deref()
returns none, and Xarc.null().is_null() is true. -/
theorem new_null_deref_spec {α : Type} (st : Heap α) (v : α) :
    Xarc.maybe_deref (Xarc.new st v).2 (Xarc.new st v).1 = some v ∧
    Xarc.maybe_deref st (Xarc.null : Xarc α) = none ∧
    Xarc.is_null (Xarc.null : Xarc α) = true := by
  refine ⟨?_, rfl, rfl⟩
  simp [Xarc.new, Xarc.maybe_deref, Heap.alloc, Function.update]

theorem stepOp_mono {α : Type} (st st1 : Heap α) (op : CountOp) (p : Addr)
    (hstep : stepOp st op = .ok st1) (h : st.count p ≤ 0) : st1.count p ≤ 0 := by
  cases op with
  | dec q =>
    cases hstep
    by_cases hq : q = 0
    · simpa [hq, decrement_null] using h
    · by_cases hpq : p = q
      · subst hpq
        rw [decrement_count_self st p hq]
        omega
      · rw [decrement_count_other st q p hpq]
        exact h
  | udec q =>
    by_cases hq : q = 0
    · simp only [stepOp, unguarded_decrement, if_pos hq] at hstep
      cases hstep
      exact h
    · simp only [stepOp, unguarded_decrement, XarcCount.decrement, if_neg hq] at hstep
      by_cases h1 : st.count q = 1
      · simp [h1] at hstep
      · simp only [if_neg h1] at hstep
        cases hstep
        by_cases hpq : p = q
        · subst hpq
          simp only [Function.update_same]
          omega
        · simpa [Function.update_noteq hpq] using h
  | tryinc q =>
    cases hstep
    by_cases hq : q = 0
    · simpa [hq, try_increment_null] using h
    · by_cases hc : 0 < st.count q
      · rw [try_increment_pos st q hq hc]
        by_cases hpq : p = q
        · subst hpq
          exact absurd hc (not_lt.mpr h)
        · simpa [Function.update_noteq hpq] using h
      · rw [try_increment_nonpos st q hq (not_lt.mp hc)]
        exact h
  | uinc q =>
    by_cases hq : q = 0
    · simp only [stepOp, unguarded_increment, if_pos hq] at hstep
      cases hstep
      exact h
    · simp only [stepOp, unguarded_increment, XarcCount.uncheckedIncrement,
        if_neg hq] at hstep
      by_cases h1 : st.count q < 1
      · simp [h1] at hstep
      · simp only [if_neg h1] at hstep
        cases hstep
        by_cases hpq : p = q
        · subst hpq
          exact absurd (not_lt.mp h1) (not_le.mpr (by omega))
        · simpa [Function.update_noteq hpq] using h

/-- C6: monotonic death — along any sequence of operations of the
reference-counting interface (guarded and unguarded increments and
decrements) that runs to completion without aborting, once the count of an
address is at or below 0 it never rises to a positive value again. -/
theorem runOps_monotonic_death {α : Type} (ops : List CountOp) (st st1 : Heap α)
    (p : Addr) (hrun : runOps st ops = .ok st1) (h : st.count p ≤ 0) :
    st1.count p ≤ 0 := by
  induction ops generalizing st with
  | nil =>
    simp only [runOps] at hrun
    cases hrun
    exact h
  | cons op ops ih =>
    simp only [runOps] at hrun
    cases hstep : stepOp st op with
    | ok st2 =>
      rw [hstep] at hrun
      exact ih st2 hrun (stepOp_mono st st2 op p hstep h)
    | panicked m => rw [hstep] at hrun; cases hrun
    | spin => rw [hstep] at hrun; cases hrun

theorem runOps_monotonic_death_witness :
    (decrement (try_increment (emptyHeap Int) 1).2 1).count 1 ≤ 0 :=
  runOps_monotonic_death [CountOp.tryinc 1, CountOp.dec 1] (emptyHeap Int)
    (decrement (try_increment (emptyHeap Int) 1).2 1) 1 rfl (by decide)

/-- C10: null is a first-class value: try_load on a null slot succeeds
immediately with the null handle, load on a null slot succeeds on its first
iteration with the null handle, and clone, drop, and reset of a null Xarc
leave the heap untouched — no count change, no scheduled deallocation — and
never panic. -/
theorem null_first_class {α : Type} (st : Heap α) (fuel : Nat) :
    AtomicXarc.try_load st 0 = (Except.ok (Xarc.null : Xarc α), st) ∧
    AtomicXarc.load (fuel + 1) st 0 = .ok ((Xarc.null : Xarc α), st) ∧
    Xarc.clone st (Xarc.null : Xarc α) = .ok (Xarc.null, st) ∧
    Xarc.drop st (Xarc.null : Xarc α) = st ∧
    Xarc.reset st (Xarc.null : Xarc α) = (Xarc.null, st) := by
  refine ⟨rfl, ?_, rfl, rfl, rfl⟩
  simp [AtomicXarc.load, Xarc.try_from, try_increment_null, Xarc.null, Xarc.init]

/-- C1: when the hardware CAS succeeds (the slot stores the address held by
current), compare_exchange returns Ok carrying the previous slot address with
the slot now storing the address of new; the count of every block other than
the block of new is unchanged (in particular the previous block, whose
logical reference transfers to the returned handle), the block of new gains
exactly one reference for the slot, and nothing is scheduled for
deallocation. -/
theorem compare_exchange_success_frame {α : Type} (fuel : Nat) (st : Heap α)
    (slot : Addr) (current nw : Xarc α)
    (hnew : nw.ptr = 0 ∨ 1 ≤ st.count nw.ptr)
    (hcas : slot = current.ptr) :
    ∃ st1, AtomicXarc.compare_exchange fuel st slot current nw =
        .ok (Except.ok (Xarc.init slot), nw.ptr, st1) ∧
      (∀ a, a ≠ nw.ptr → st1.count a = st.count a) ∧
      (nw.ptr ≠ 0 → st1.count nw.ptr = st.count nw.ptr + 1) ∧
      st1.deferred = st.deferred ∧ st1.val = st.val := by
  by_cases hq : nw.ptr = 0
  · refine ⟨st, ?_, fun a _ => rfl, fun hh => absurd hq hh, rfl, rfl⟩
    have hA : unguarded_increment st nw.ptr = .ok st := by
      rw [hq]; exact unguarded_increment_null st
    simp [AtomicXarc.compare_exchange, hA, hcas]
  · have hc : 1 ≤ st.count nw.ptr := hnew.resolve_left hq
    have hA := unguarded_increment_pos st nw.ptr hq hc
    refine ⟨{ st with count := Function.update st.count nw.ptr (st.count nw.ptr + 1) },
      ?_, ?_, ?_, rfl, rfl⟩
    · simp [AtomicXarc.compare_exchange, hA, hcas]
    · intro a ha
      simp [Function.update_noteq ha]
    · intro _
      simp [Function.update_same]

theorem compare_exchange_success_frame_witness :
    ∃ st1, AtomicXarc.compare_exchange 1 heap2 1 ⟨1⟩ ⟨2⟩ =
        .ok (Except.ok (Xarc.init 1), 2, st1) ∧
      (∀ a, a ≠ 2 → st1.count a = heap2.count a) ∧
      ((2 : Addr) ≠ 0 → st1.count 2 = heap2.count 2 + 1) ∧
      st1.deferred = heap2.deferred ∧ st1.val = heap2.val :=
  compare_exchange_success_frame 1 heap2 1 ⟨1⟩ ⟨2⟩ (Or.inr (by decide)) rfl

/-- C8: swap always succeeds: it installs the address of new into the slot,
returns the previous slot address wrapped without any count change on the
previous block (the slot reference transfers to the returned handle), and
increments the count of the block of new by exactly one for the reference
the slot now holds; nothing is scheduled for deallocation. -/
theorem swap_frame {α : Type} (st : Heap α) (slot : Addr) (nw : Xarc α)
    (hnew : nw.ptr = 0 ∨ 1 ≤ st.count nw.ptr) :
    ∃ st1, AtomicXarc.swap st slot nw = .ok (Xarc.init slot, nw.ptr, st1) ∧
      (∀ a, a ≠ nw.ptr → st1.count a = st.count a) ∧
      (nw.ptr ≠ 0 → st1.count nw.ptr = st.count nw.ptr + 1) ∧
      st1.deferred = st.deferred ∧ st1.val = st.val := by
  by_cases hq : nw.ptr = 0
  · refine ⟨st, ?_, fun a _ => rfl, fun hh => absurd hq hh, rfl, rfl⟩
    have hA : unguarded_increment st nw.ptr = .ok st := by
      rw [hq]; exact unguarded_increment_null st
    simp [AtomicXarc.swap, hA]
  · have hc : 1 ≤ st.count nw.ptr := hnew.resolve_left hq
    have hA := unguarded_increment_pos st nw.ptr hq hc
    refine ⟨{ st with count := Function.update st.count nw.ptr (st.count nw.ptr + 1) },
      ?_, ?_, ?_, rfl, rfl⟩
    · simp [AtomicXarc.swap, hA]
    · intro a ha
      simp [Function.update_noteq ha]
    · intro _
      simp [Function.update_same]

theorem swap_frame_witness :
    ∃ st1, AtomicXarc.swap heap2 1 ⟨2⟩ = .ok (Xarc.init 1, 2, st1) ∧
      (∀ a, a ≠ 2 → st1.count a = heap2.count a) ∧
      ((2 : Addr) ≠ 0 → st1.count 2 = heap2.count 2 + 1) ∧
      st1.deferred = heap2.deferred ∧ st1.val = heap2.val :=
  swap_frame heap2 1 ⟨2⟩ (Or.inr (by decide))

/-- C7 (modelled from the spec): try_take succeeds — moving the stored value
out, leaving the sentinel behind — exactly when the handle is non-null and
the count is 1; on a null handle or any other count it returns the original
handle with the heap unchanged, and it never panics, being a total
function. -/
theorem try_take_spec {α : Type} (st : Heap α) (sentinel v : α) (h : Xarc α) :
    (h.ptr ≠ 0 ∧ st.count h.ptr = 1 ∧ st.val h.ptr = some v →
      Xarc.try_take st sentinel h =
        (Sum.inl v, { st with val := Function.update st.val h.ptr (some sentinel) })) ∧
    (h.ptr = 0 ∨ st.count h.ptr ≠ 1 →
      Xarc.try_take st sentinel h = (Sum.inr h, st)) := by
  constructor
  · rintro ⟨h0, h1, hv⟩
    simp [Xarc.try_take, h0, h1, hv]
  · intro hcase
    have hno : ¬(h.ptr ≠ 0 ∧ st.count h.ptr = 1) := by
      rcases hcase with h0 | h1
      · exact fun hc => hc.1 h0
      · exact fun hc => h1 hc.2
    simp [Xarc.try_take, hno]

theorem try_take_spec_witness :
    (Xarc.try_take heap1 0 (⟨1⟩ : Xarc Int) =
      (Sum.inl 5, { heap1 with val := Function.update heap1.val 1 (some 0) })) ∧
    (Xarc.try_take heap2 0 (Xarc.null : Xarc Int) = (Sum.inr Xarc.null, heap2)) :=
  ⟨(try_take_spec heap1 0 5 ⟨1⟩).1 ⟨by decide, by decide, by decide⟩,
   (try_take_spec heap2 0 5 Xarc.null).2 (Or.inl rfl)⟩


theorem increment_or_reload_of_hit {α : Type} (fuel : Nat) (st st1 : Heap α)
    (slot p : Addr) (h : try_increment st p = (true, st1)) :
    AtomicXarc.increment_or_reload fuel st slot p = .ok (Xarc.init p, st1) := by
  simp [AtomicXarc.increment_or_reload, h]

theorem compare_exchange_fail_reduce {α : Type} (fuel : Nat)
    (st stA stB : Heap α) (slot : Addr) (current nw : Xarc α)
    (hA : unguarded_increment st nw.ptr = .ok stA)
    (hcas : slot ≠ current.ptr)
    (ht : try_increment (decrement stA nw.ptr) slot = (true, stB)) :
    AtomicXarc.compare_exchange fuel st slot current nw =
      .ok (Except.error (Xarc.init slot), slot, stB) := by
  have hio := increment_or_reload_of_hit fuel (decrement stA nw.ptr) stB slot slot ht
  simp [AtomicXarc.compare_exchange, hA, hcas, hio]

/-- C2: when the hardware CAS fails (the slot stores an address different
from the one held by current), compare_exchange leaves the slot unchanged,
undoes the optimistic increment on the block of new (every address other
than the one the slot stores keeps its count), returns Err carrying the
up-to-date slot address obtained through the try_increment path of
increment_or_reload — the one extra count now owned by the returned
handle — and schedules nothing for deallocation. -/
theorem compare_exchange_failure_frame {α : Type} (fuel : Nat) (st : Heap α)
    (slot : Addr) (current nw : Xarc α)
    (hnew : nw.ptr = 0 ∨ 1 ≤ st.count nw.ptr)
    (hslot : slot = 0 ∨ 1 ≤ st.count slot)
    (hcas : slot ≠ current.ptr) :
    ∃ st1, AtomicXarc.compare_exchange fuel st slot current nw =
        .ok (Except.error (Xarc.init slot), slot, st1) ∧
      (∀ a, a ≠ slot → st1.count a = st.count a) ∧
      (slot ≠ 0 → st1.count slot = st.count slot + 1) ∧
      st1.deferred = st.deferred ∧ st1.val = st.val := by
  by_cases hq : nw.ptr = 0
  · have hA : unguarded_increment st nw.ptr = .ok st := by
      rw [hq]; exact unguarded_increment_null st
    have hd : decrement st nw.ptr = st := by
      rw [hq]; exact decrement_null st
    by_cases hs : slot = 0
    · refine ⟨st, ?_, fun a _ => rfl, fun hh => absurd hs hh, rfl, rfl⟩
      refine compare_exchange_fail_reduce fuel st st st slot current nw hA hcas ?_
      rw [hd, hs]
      exact try_increment_null st
    · have hpos : 0 < st.count slot :=
        lt_of_lt_of_le Int.zero_lt_one (hslot.resolve_left hs)
      refine ⟨{ st with count := Function.update st.count slot (st.count slot + 1) },
        ?_, ?_, ?_, rfl, rfl⟩
      · refine compare_exchange_fail_reduce fuel st st _ slot current nw hA hcas ?_
        rw [hd]
        exact try_increment_pos st slot hs hpos
      · intro a ha
        simp [Function.update_noteq ha]
      · intro _
        simp [Function.update_same]
  · have hc : 1 ≤ st.count nw.ptr := hnew.resolve_left hq
    have hA := unguarded_increment_pos st nw.ptr hq hc
    have hAcount :
        ({ st with count := Function.update st.count nw.ptr (st.count nw.ptr + 1) } :
          Heap α).count nw.ptr = st.count nw.ptr + 1 := by
      simp [Function.update_same]
    have h2count :
        ∀ a, (decrement { st with
            count := Function.update st.count nw.ptr (st.count nw.ptr + 1) } nw.ptr).count a =
          st.count a := by
      intro a
      by_cases hap : a = nw.ptr
      · subst hap
        rw [decrement_count_self _ _ hq, hAcount]
        omega
      · rw [decrement_count_other _ _ _ hap]
        simp [Function.update_noteq hap]
    have h2def :
        (decrement { st with
            count := Function.update st.count nw.ptr (st.count nw.ptr + 1) } nw.ptr).deferred =
          st.deferred := by
      rw [decrement_deferred _ _ hq, hAcount]
      have hne : st.count nw.ptr + 1 ≠ 1 := by omega
      simp [hne]
    have h2val :
        (decrement { st with
            count := Function.update st.count nw.ptr (st.count nw.ptr + 1) } nw.ptr).val =
          st.val := by
      rw [decrement_val]
    by_cases hs : slot = 0
    · refine ⟨decrement { st with
          count := Function.update st.count nw.ptr (st.count nw.ptr + 1) } nw.ptr,
        ?_, fun a _ => h2count a, fun hh => absurd hs hh, h2def, h2val⟩
      refine compare_exchange_fail_reduce fuel st
        { st with count := Function.update st.count nw.ptr (st.count nw.ptr + 1) }
        (decrement { st with
          count := Function.update st.count nw.ptr (st.count nw.ptr + 1) } nw.ptr)
        slot current nw hA hcas ?_
      rw [hs]
      exact try_increment_null _
    · have hpos : 0 < (decrement { st with
          count := Function.update st.count nw.ptr (st.count nw.ptr + 1) } nw.ptr).count slot := by
        rw [h2count slot]
        exact lt_of_lt_of_le Int.zero_lt_one (hslot.resolve_left hs)
      have ht := try_increment_pos (decrement { st with
          count := Function.update st.count nw.ptr (st.count nw.ptr + 1) } nw.ptr) slot hs hpos
      refine ⟨_, compare_exchange_fail_reduce fuel st
        { st with count := Function.update st.count nw.ptr (st.count nw.ptr + 1) }
        _ slot current nw hA hcas ht, ?_, ?_, ?_, ?_⟩
      · intro a ha
        simp [Function.update_noteq ha, h2count a]
      · intro _
        simp [Function.update_same, h2count slot]
      · simpa using h2def
      · simpa using h2val

theorem compare_exchange_failure_frame_witness :
    ∃ st1, AtomicXarc.compare_exchange 1 heap2 1 ⟨2⟩ ⟨2⟩ =
        .ok (Except.error (Xarc.init 1), 1, st1) ∧
      (∀ a, a ≠ 1 → st1.count a = heap2.count a) ∧
      ((1 : Addr) ≠ 0 → st1.count 1 = heap2.count 1 + 1) ∧
      st1.deferred = heap2.deferred ∧ st1.val = heap2.val :=
  compare_exchange_failure_frame 1 heap2 1 ⟨2⟩ ⟨2⟩ (Or.inr (by decide))
    (Or.inr (by decide)) (by decide)
